import Mathlib

/-!
Verification of the serial message framing layer of the RXtoRINEX
`SerialTxRx` class (file `SerialTxRx/src_Ubuntu/SerialTxRx.cpp`).

The serial transport is modelled as a queue of read outcomes: each
queue element is either a byte delivered by the port (`RdByte.ok`), a
zero-length read, as produced by a `VTIME` timeout or EOF
(`RdByte.stop`), or a read error, `read` returning `-1` (`RdByte.err`).
A `read(fd, buf, n)` call collects the maximal run of available bytes
up to `n`; when no byte is available it consumes and reports the
leading timeout/error event, and an exhausted queue behaves as a port
that keeps timing out (`read` returns 0).

Bytes travel as `Nat` and are reduced mod 256 when the port delivers
them into an `unsigned char`; shifts and masks of the C code are
rendered as division/remainder by powers of two.
-/

def MAXBUFFERSIZE : Nat := 2052
def START1 : Nat := 160
def START2 : Nat := 162
def END1 : Nat := 176
def END2 : Nat := 179
def LF : Nat := 10
def CR : Nat := 13
def DOLAR : Nat := 36

inductive RdByte where
  | ok (b : Nat)
  | stop
  | err
deriving DecidableEq

/-- Maximal run of delivered bytes (each reduced to `unsigned char`)
collected by a single `read` call asking for at most `n` bytes. -/
def okRun : Nat → List RdByte → List Nat
  | 0, _ => []
  | _, [] => []
  | n + 1, RdByte.ok b :: t => b % 256 :: okRun n t
  | _ + 1, RdByte.stop :: _ => []
  | _ + 1, RdByte.err :: _ => []

/-- One `read(fd, buf, n)` call: result count (`-1` on error), the bytes
delivered, and the remaining queue. -/
def transRead (q : List RdByte) (n : Int) : Int × List Nat × List RdByte :=
  if n ≤ 0 then (0, [], q)
  else
    match q with
    | [] => (0, [], [])
    | RdByte.stop :: t => (0, [], t)
    | RdByte.err :: t => (-1, [], t)
    | RdByte.ok b :: t =>
      let bs := okRun n.toNat (RdByte.ok b :: t)
      ((bs.length : Int), bs, (RdByte.ok b :: t).drop bs.length)

/-- Transition of the OSP synchronization automaton on one delivered
byte: the next state and whether the byte wastes one unit of patience
(`SerialTxRx::synchOSPmsg`, inner switch). -/
def ospSyncStep (state b : Nat) : Nat × Bool :=
  if state = 1 then
    if b = START1 then (2, false)
    else if b = START2 then (1, false)
    else (1, true)
  else
    if b = START1 then (2, false)
    else if b = START2 then (3, false)
    else (1, true)

/-- `SerialTxRx::synchOSPmsg` loop: skip input until `START1 START2`
is seen or patience is exhausted; failed/empty reads cost one unit of
patience. Returns (synced?, remaining patience, remaining queue). -/
def synchOSPmsg (state patience : Nat) (q : List RdByte) : Bool × Nat × List RdByte :=
  if state = 3 then (true, patience, q)
  else if patience = 0 then (false, 0, q)
  else
    match q with
    | [] => synchOSPmsg state (patience - 1) []
    | RdByte.stop :: t => synchOSPmsg state (patience - 1) t
    | RdByte.err :: t => synchOSPmsg state (patience - 1) t
    | RdByte.ok b :: t =>
      let s := ospSyncStep state (b % 256)
      synchOSPmsg s.1 (if s.2 then patience - 1 else patience) t
termination_by (patience, q.length)
decreasing_by
  all_goals simp_wf
  · omega
  · omega
  · omega
  · rcases (ospSyncStep state (b % 256)).2 <;> simp <;> omega

/-- 15-bit additive OSP checksum: seeded with the first byte, each
further byte is added and the accumulator masked with `0x7FFF`
(checksum loops of `readOSPmsg` and `writeOSPcmd`). -/
def ospChecksum : List Nat → Nat
  | [] => 0
  | b :: t => t.foldl (fun acc x => (acc + x) % 32768) b

/-- Payload-plus-checksum read loop of `SerialTxRx::readOSPmsg`:
repeatedly `read` the still-missing bytes until `need` bytes are
stored or a read returns 0. `fuel` bounds the number of iterations
we inspect; `none` means the loop is still running after `fuel`
reads. -/
def ospPayLoop (fuel : Nat) (buf : List Nat) (stored : Int) (need : Nat)
    (q : List RdByte) : Option (List Nat × Int × List RdByte) :=
  match fuel with
  | 0 => none
  | fuel + 1 =>
    match transRead q ((need : Int) - stored) with
    | (r, bs, q') =>
      let buf' := buf ++ bs
      let stored' := stored + r
      if r ≠ 0 ∧ stored' < (need : Int) then ospPayLoop fuel buf' stored' need q'
      else some (buf', stored', q')

/-- Tail of `SerialTxRx::readOSPmsg` after the length field passed its
range check: read `payloadLen + 2` bytes, then verify the 15-bit
checksum against the trailing big-endian word. -/
def ospAfterLen (fuel payloadLen : Nat) (q : List RdByte) :
    Option (Nat × List Nat × Nat × List RdByte) :=
  match ospPayLoop fuel [] 0 (payloadLen + 2) q with
  | none => none
  | some (buf, stored, q') =>
    if stored < (payloadLen : Int) + 2 then some (2, buf, payloadLen, q')
    else
      let computedCheck := ospChecksum (buf.take payloadLen)
      let messageCheck := 256 * buf.getD payloadLen 0 + buf.getD (payloadLen + 1) 0
      if computedCheck = messageCheck then some (0, buf, payloadLen, q')
      else some (1, buf, payloadLen, q')

/-- `SerialTxRx::readOSPmsg`: synchronize, read the 2-byte big-endian
payload length, range-check it, then read and verify the payload.
Returns (status, buffer contents, payloadLen, remaining queue);
`none` means the payload loop was still running after `fuel` reads. -/
def readOSPmsg (fuel patience : Nat) (q : List RdByte) :
    Option (Nat × List Nat × Nat × List RdByte) :=
  match synchOSPmsg 1 patience q with
  | (false, _, q1) => some (6, ([] : List Nat), 0, q1)
  | (true, _, q1) =>
    match transRead q1 2 with
    | (r, bs, q2) =>
      if r = 2 then
        match bs with
        | [b0, b1] =>
          let payloadLen := 256 * b0 + b1
          if 0 < payloadLen ∧ payloadLen < MAXBUFFERSIZE - 1 - 2 then
            ospAfterLen fuel payloadLen q2
          else some (3, [], payloadLen, q2)
        | _ => some (4, [], 0, q2)
      else some (4, [], 0, q2)

/-- `SerialTxRx::writeOSPcmd` frame construction, after the argument
string has been tokenized: guard against an oversized command, then
emit start bytes, big-endian length `1 + tokens`, message id, token
bytes, big-endian 15-bit checksum over id and tokens, and end bytes.
`none` models the "OSP cmd too long" throw. -/
def writeOSPcmd (mid : Nat) (args : List Nat) : Option (List Nat) :=
  let payloadLen := 1 + args.length
  if 2 + 2 + 1 + payloadLen + 2 + 2 > MAXBUFFERSIZE then none
  else
    let body := mid % 256 :: args.map (fun a => a % 256)
    let chk := ospChecksum body
    some ([START1, START2, payloadLen / 256, payloadLen % 256] ++ body ++
      [chk / 256, chk % 256, END1, END2])

/-- Transition of the NMEA synchronization automaton on one delivered
byte (`SerialTxRx::synchNMEAmsg`, inner switch). -/
def nmeaSyncStep (state b : Nat) : Nat × Bool :=
  if state = 1 then
    if b = LF then (2, false)
    else if b = DOLAR then (1, false)
    else (1, true)
  else
    if b = LF then (2, false)
    else if b = DOLAR then (3, false)
    else (1, true)

/-- `SerialTxRx::synchNMEAmsg` loop: skip input until `<LF><$>` is
seen or patience is exhausted. -/
def synchNMEAmsg (state patience : Nat) (q : List RdByte) : Bool × Nat × List RdByte :=
  if state = 3 then (true, patience, q)
  else if patience = 0 then (false, 0, q)
  else
    match q with
    | [] => synchNMEAmsg state (patience - 1) []
    | RdByte.stop :: t => synchNMEAmsg state (patience - 1) t
    | RdByte.err :: t => synchNMEAmsg state (patience - 1) t
    | RdByte.ok b :: t =>
      let s := nmeaSyncStep state (b % 256)
      synchNMEAmsg s.1 (if s.2 then patience - 1 else patience) t
termination_by (patience, q.length)
decreasing_by
  all_goals simp_wf
  · omega
  · omega
  · omega
  · rcases (nmeaSyncStep state (b % 256)).2 <;> simp <;> omega

/-- Character-accumulation loop of `SerialTxRx::readNMEAmsg`: read one
char at a time until CR, a failed read, or buffer capacity. Returns
(returnValue, payloadLen, accumulated chars, remaining queue); on CR
with at least 5 chars the last 3 are declared to be the `*SS`
checksum field and `payloadLen` is reduced by 3. -/
def nmeaLoop (len : Nat) (buf : List Nat) (q : List RdByte) :
    Nat × Nat × List Nat × List RdByte :=
  match q with
  | [] => (3, len, buf, [])
  | RdByte.stop :: t => (3, len, buf, t)
  | RdByte.err :: t => (3, len, buf, t)
  | RdByte.ok b :: t =>
    let c := b % 256
    if c = CR then
      if len < 5 then (2, len, buf, t)
      else (0, len - 3, buf, t)
    else if len < MAXBUFFERSIZE - 1 then nmeaLoop (len + 1) (buf ++ [c]) t
    else (3, len, buf ++ [c], t)

/-- XOR NMEA checksum: seeded with the first byte, XOR-folding the
rest (checksum loops of `readNMEAmsg` and `writeNMEAcmd`). -/
def nmeaChecksum : List Nat → Nat
  | [] => 0
  | b :: t => t.foldl (fun acc x => Nat.xor acc x) b

/-- Value of an ASCII hex digit, as accepted by `sscanf` `%x`. -/
def hexVal (c : Nat) : Option Nat :=
  if 48 ≤ c ∧ c ≤ 57 then some (c - 48)
  else if 65 ≤ c ∧ c ≤ 70 then some (c - 55)
  else if 97 ≤ c ∧ c ≤ 102 then some (c - 87)
  else none

/-- `sscanf(s, "%x")` over the two characters that follow the stripped
message body: parse the maximal hex-digit run; when no digit parses the
destination keeps its initial value 0. -/
def sscanfHex2 (a b : Nat) : Nat :=
  match hexVal a, hexVal b with
  | some x, some y => 16 * x + y
  | some x, none => x
  | none, _ => 0

/-- `SerialTxRx::readNMEAmsg`: synchronize on `<LF><$>`, accumulate
the line up to CR, strip the trailing 3-byte checksum field, and
verify the XOR checksum. Returns (status, payloadLen, body,
remaining queue). -/
def readNMEAmsg (patience : Nat) (q : List RdByte) :
    Nat × Nat × List Nat × List RdByte :=
  match synchNMEAmsg 1 patience q with
  | (false, _, q1) => (4, 0, [], q1)
  | (true, _, q1) =>
    match nmeaLoop 0 [] q1 with
    | (rv, pl, buf, q2) =>
      if rv = 0 then
        let computedCheck := nmeaChecksum (buf.take pl)
        let messageCheck := sscanfHex2 (buf.getD (pl + 1) 0) (buf.getD (pl + 2) 0)
        if computedCheck = messageCheck then (0, pl, buf.take pl, q2)
        else (1, pl, buf.take pl, q2)
      else (rv, pl, buf, q2)

/-- Decimal digit string (ASCII codes) of a natural number, as printed
by `printf` `%d`; the fuel argument dominates the number of digits so the
recursion is structural. -/
def decRepAux (fuel n : Nat) : List Nat :=
  match fuel with
  | 0 => [48 + n % 10]
  | f + 1 => if n < 10 then [48 + n] else decRepAux f (n / 10) ++ [48 + n % 10]

/-- Decimal digit string (ASCII codes) of a natural number. -/
def decRep (n : Nat) : List Nat := decRepAux n n

/-- `printf` `%3d`: decimal digits, left-padded with spaces to width 3. -/
def fmt3 (n : Nat) : List Nat :=
  List.replicate (3 - (decRep n).length) 32 ++ decRep n

/-- Uppercase hex digit of a value below 16, as printed by `%02X`. -/
def hexDigitU (v : Nat) : Nat :=
  if v < 10 then 48 + v else 55 + v

/-- `SerialTxRx::writeNMEAcmd`: build `$PSRF%3d,` followed by the
argument text, XOR all characters after the `$`, and append
`*<2 uppercase hex digits>\r\n`. Returns the emitted byte string. -/
def writeNMEAcmd (mid : Nat) (args : List Nat) : List Nat :=
  let s := [DOLAR, 80, 83, 82, 70] ++ fmt3 mid ++ [44] ++ args
  let chk := nmeaChecksum (s.drop 1)
  s ++ [42, hexDigitU (chk / 16), hexDigitU (chk % 16), CR, LF]

/-- Whether a byte list contains `START1` immediately followed by
`START2` (decides whether the OSP synchronizer can ever fire). -/
def hasStartSeq : List Nat → Bool
  | a :: b :: t => (a == START1 && b == START2) || hasStartSeq (b :: t)
  | _ => false

/-! ### Unfolding lemmas for the synchronization loops -/

theorem synchOSP_done (p : Nat) (q : List RdByte) :
    synchOSPmsg 3 p q = (true, p, q) := by
  rw [synchOSPmsg.eq_def]
  simp

theorem synchOSP_zero (s : Nat) (q : List RdByte) (hs : s ≠ 3) :
    synchOSPmsg s 0 q = (false, 0, q) := by
  rw [synchOSPmsg.eq_def]
  simp [hs]

theorem synchOSP_ok (s p b : Nat) (t : List RdByte) (hs : s ≠ 3) (hp : 0 < p) :
    synchOSPmsg s p (RdByte.ok b :: t) =
      synchOSPmsg (ospSyncStep s (b % 256)).1
        (if (ospSyncStep s (b % 256)).2 then p - 1 else p) t := by
  rw [synchOSPmsg]
  simp [hs, Nat.pos_iff_ne_zero.mp hp]

theorem synchOSP_stop (s p : Nat) (t : List RdByte) (hs : s ≠ 3) (hp : 0 < p) :
    synchOSPmsg s p (RdByte.stop :: t) = synchOSPmsg s (p - 1) t := by
  rw [synchOSPmsg]
  simp [hs, Nat.pos_iff_ne_zero.mp hp]

theorem synchOSP_err (s p : Nat) (t : List RdByte) (hs : s ≠ 3) (hp : 0 < p) :
    synchOSPmsg s p (RdByte.err :: t) = synchOSPmsg s (p - 1) t := by
  rw [synchOSPmsg]
  simp [hs, Nat.pos_iff_ne_zero.mp hp]

theorem synchOSP_nil (s : Nat) (hs : s ≠ 3) :
    ∀ p, synchOSPmsg s p [] = (false, 0, []) := by
  intro p
  induction p with
  | zero => exact synchOSP_zero s [] hs
  | succ n ih =>
    rw [synchOSPmsg]
    simpa [hs] using ih

theorem synchOSP_start (p : Nat) (q : List RdByte) (hp : 0 < p) :
    synchOSPmsg 1 p (RdByte.ok 160 :: RdByte.ok 162 :: q) = (true, p, q) := by
  rw [synchOSP_ok 1 p 160 _ (by omega) hp]
  norm_num [ospSyncStep, START1, START2]
  rw [synchOSP_ok 2 p 162 _ (by omega) hp]
  norm_num [ospSyncStep, START1, START2]
  exact synchOSP_done p q

theorem synchNMEA_done (p : Nat) (q : List RdByte) :
    synchNMEAmsg 3 p q = (true, p, q) := by
  rw [synchNMEAmsg.eq_def]
  simp

theorem synchNMEA_ok (s p b : Nat) (t : List RdByte) (hs : s ≠ 3) (hp : 0 < p) :
    synchNMEAmsg s p (RdByte.ok b :: t) =
      synchNMEAmsg (nmeaSyncStep s (b % 256)).1
        (if (nmeaSyncStep s (b % 256)).2 then p - 1 else p) t := by
  rw [synchNMEAmsg]
  simp [hs, Nat.pos_iff_ne_zero.mp hp]

theorem synchNMEA_start (p : Nat) (q : List RdByte) (hp : 0 < p) :
    synchNMEAmsg 1 p (RdByte.ok 10 :: RdByte.ok 36 :: q) = (true, p, q) := by
  rw [synchNMEA_ok 1 p 10 _ (by omega) hp]
  norm_num [nmeaSyncStep, LF, DOLAR]
  rw [synchNMEA_ok 2 p 36 _ (by omega) hp]
  norm_num [nmeaSyncStep, LF, DOLAR]
  exact synchNMEA_done p q

/-! ### Transport reads delivering an exact run of bytes -/

theorem okRun_exact (l : List Nat) (r : List RdByte) :
    okRun l.length (l.map RdByte.ok ++ r) = l.map (fun b => b % 256) := by
  induction l with
  | nil => simp [okRun]
  | cons b t ih => simpa [okRun] using ih

theorem transRead_exact (l : List Nat) (r : List RdByte) (hl : l ≠ []) :
    transRead (l.map RdByte.ok ++ r) (l.length : Int) =
      ((l.length : Int), l.map (fun b => b % 256), r) := by
  match l with
  | b :: t =>
    rw [transRead.eq_def]
    have hpos : ¬ (((b :: t).length : Int) ≤ 0) := by
      simp [List.length_cons]
    simp only [hpos, if_false, List.map_cons, List.cons_append]
    have htn : ((((b :: t).length : Int)).toNat) = (b :: t).length := Int.toNat_natCast _
    rw [htn]
    have hrun : okRun (b :: t).length (RdByte.ok b :: (t.map RdByte.ok ++ r)) =
        (b :: t).map (fun x => x % 256) := by
      simpa using okRun_exact (b :: t) r
    rw [hrun]
    have hlen : ((b :: t).map (fun x => x % 256)).length = (b :: t).length :=
      List.length_map _ _
    rw [hlen]
    have hdrop : (RdByte.ok b :: (t.map RdByte.ok ++ r)).drop (b :: t).length = r := by
      simp
    rw [hdrop]
    simp

theorem transRead_two (a b : Nat) (r : List RdByte) :
    transRead (RdByte.ok a :: RdByte.ok b :: r) 2 = (2, [a % 256, b % 256], r) := by
  simpa using transRead_exact [a, b] r (by simp)

/-! ### Arithmetic facts about the checksums -/

theorem foldl_addmod (t : List Nat) (s : Nat) (hs : s < 32768) :
    t.foldl (fun acc x => (acc + x) % 32768) s = (s + t.sum) % 32768 := by
  induction t generalizing s with
  | nil => simpa using (Nat.mod_eq_of_lt hs).symm
  | cons x t ih =>
    rw [List.foldl_cons, ih ((s + x) % 32768) (Nat.mod_lt _ (by norm_num))]
    rw [Nat.mod_add_mod, List.sum_cons]
    ring_nf

theorem ospChecksum_eq_sum (l : List Nat) (hne : l ≠ []) (hlt : ∀ a ∈ l, a < 256) :
    ospChecksum l = l.sum % 32768 := by
  match l with
  | b :: t =>
    have hb : b < 32768 := by
      have := hlt b (by simp)
      omega
    rw [ospChecksum, foldl_addmod t b hb, List.sum_cons]

theorem ospChecksum_lt (l : List Nat) (hne : l ≠ []) (hlt : ∀ a ∈ l, a < 256) :
    ospChecksum l < 32768 := by
  rw [ospChecksum_eq_sum l hne hlt]
  exact Nat.mod_lt _ (by norm_num)

theorem map_mod_id (l : List Nat) (hlt : ∀ a ∈ l, a < 256) :
    l.map (fun a => a % 256) = l := by
  induction l with
  | nil => rfl
  | cons b t ih =>
    have hb : b % 256 = b := Nat.mod_eq_of_lt (hlt b (by simp))
    have ht : ∀ a ∈ t, a < 256 := fun a ha => hlt a (List.mem_cons_of_mem _ ha)
    simp [hb, ih ht]

/-! ### Indexing helpers -/

theorem getD_append_len (xs ys : List Nat) (k : Nat) :
    (xs ++ ys).getD (xs.length + k) 0 = ys.getD k 0 := by
  induction xs with
  | nil => simp
  | cons x t ih =>
    have : (x :: t).length + k = (t.length + k) + 1 := by
      simp [List.length_cons]
      omega
    rw [this, List.cons_append, List.getD_cons_succ, ih]

theorem getD_append_fst (xs : List Nat) (a b : Nat) :
    (xs ++ [a, b]).getD xs.length 0 = a := by
  have h := getD_append_len xs [a, b] 0
  simpa using h

theorem getD_append_snd (xs : List Nat) (a b : Nat) :
    (xs ++ [a, b]).getD (xs.length + 1) 0 = b := by
  have h := getD_append_len xs [a, b] 1
  simpa using h

theorem ospPayLoop_exact (fuel : Nat) (l : List Nat) (r : List RdByte) (need : Nat)
    (hf : 0 < fuel) (hl : l.length = need) (hne : l ≠ []) :
    ospPayLoop fuel [] 0 need (l.map RdByte.ok ++ r) =
      some (l.map (fun b => b % 256), (need : Int), r) := by
  obtain ⟨f, rfl⟩ : ∃ f, fuel = f + 1 := ⟨fuel - 1, by omega⟩
  rw [ospPayLoop]
  have h0 : ((need : Int) - 0) = (l.length : Int) := by
    rw [hl]
    ring
  rw [h0, transRead_exact l r hne]
  dsimp only
  rw [if_neg]
  · simp [hl]
  · rw [hl]
    omega

theorem readOSP_frame (body : List Nat) (c patience : Nat) (rest : List RdByte)
    (hne : body ≠ []) (hlt : ∀ a ∈ body, a < 256) (hlen : body.length < 2049)
    (hc : c < 32768) (hp : 0 < patience) :
    readOSPmsg 1 patience
      (([START1, START2, body.length / 256, body.length % 256] ++ body ++
        [c / 256, c % 256]).map RdByte.ok ++ rest) =
      some (if ospChecksum body = c then 0 else 1,
        body ++ [c / 256, c % 256], body.length, rest) := by
  have hq : ([START1, START2, body.length / 256, body.length % 256] ++ body ++
        [c / 256, c % 256]).map RdByte.ok ++ rest =
      RdByte.ok 160 :: RdByte.ok 162 :: RdByte.ok (body.length / 256) ::
        RdByte.ok (body.length % 256) ::
        ((body ++ [c / 256, c % 256]).map RdByte.ok ++ rest) := by
    simp [START1, START2, List.map_append]
  have hbl : 0 < body.length := List.length_pos.mpr hne
  have hdiv : body.length / 256 < 256 := by
    rw [Nat.div_lt_iff_lt_mul (by norm_num)]
    omega
  have hmod : body.length % 256 < 256 := Nat.mod_lt _ (by norm_num)
  have hcdiv : c / 256 < 256 := by
    rw [Nat.div_lt_iff_lt_mul (by norm_num)]
    omega
  have hcmod : c % 256 < 256 := Nat.mod_lt _ (by norm_num)
  have hlall : ∀ a ∈ body ++ [c / 256, c % 256], a < 256 := by
    intro a ha
    rcases List.mem_append.mp ha with h | h
    · exact hlt a h
    · simp only [List.mem_cons, List.not_mem_nil, or_false] at h
      rcases h with h | h <;> omega
  rw [hq, readOSPmsg, synchOSP_start _ _ hp]
  dsimp only
  rw [transRead_two]
  dsimp only
  rw [Nat.mod_eq_of_lt hdiv, Nat.mod_eq_of_lt hmod, Nat.div_add_mod]
  rw [if_pos (rfl : (2 : Int) = 2)]
  rw [if_pos (⟨hbl, by norm_num [MAXBUFFERSIZE]; omega⟩ :
    0 < body.length ∧ body.length < MAXBUFFERSIZE - 1 - 2)]
  rw [ospAfterLen]
  have hlen2 : (body ++ [c / 256, c % 256]).length = body.length + 2 := by
    simp
  rw [ospPayLoop_exact 1 (body ++ [c / 256, c % 256]) rest (body.length + 2)
    (by norm_num) hlen2 (by simp)]
  dsimp only
  rw [map_mod_id _ hlall]
  rw [if_neg (by push_cast; omega : ¬ ((((body.length + 2 : Nat)) : Int) < (body.length : Int) + 2))]
  rw [List.take_left, getD_append_fst, getD_append_snd, Nat.div_add_mod]
  by_cases hch : ospChecksum body = c
  · simp [hch]
  · simp [hch]

/-! ### The OSP command builder -/

theorem writeOSPcmd_some (mid : Nat) (args : List Nat)
    (h : 1 + args.length ≤ 2043) :
    writeOSPcmd mid args =
      some ([START1, START2, (1 + args.length) / 256, (1 + args.length) % 256] ++
        (mid % 256 :: args.map (fun a => a % 256)) ++
        [ospChecksum (mid % 256 :: args.map (fun a => a % 256)) / 256,
         ospChecksum (mid % 256 :: args.map (fun a => a % 256)) % 256, END1, END2]) := by
  rw [writeOSPcmd]
  rw [if_neg (by norm_num [MAXBUFFERSIZE]; omega)]

theorem writeOSPcmd_none (mid : Nat) (args : List Nat)
    (h : 2043 < 1 + args.length) :
    writeOSPcmd mid args = none := by
  rw [writeOSPcmd]
  rw [if_pos (by norm_num [MAXBUFFERSIZE]; omega)]

/-- C1 (amended): for every payload `p = mid :: args` of byte values with
`0 < len p ≤ MAXBUFFERSIZE - 9`, `writeOSPcmd` builds the command frame, and
`readOSPmsg` run on exactly the emitted byte stream returns status 0 with the
stored payload equal to `p`, `payloadLen = len p`, and `payBuff[0] = p[0]`. -/
theorem osp_roundtrip_amended (mid : Nat) (args : List Nat) (patience : Nat)
    (hmid : mid < 256) (hargs : ∀ a ∈ args, a < 256)
    (hlen : 1 + args.length ≤ MAXBUFFERSIZE - 9) (hp : 0 < patience) :
    ∃ frame,
      writeOSPcmd mid args = some frame ∧
      readOSPmsg 1 patience (frame.map RdByte.ok) =
        some (0,
          (mid :: args) ++
            [ospChecksum (mid :: args) / 256, ospChecksum (mid :: args) % 256],
          (mid :: args).length, [RdByte.ok END1, RdByte.ok END2]) ∧
      ((mid :: args) ++
        [ospChecksum (mid :: args) / 256, ospChecksum (mid :: args) % 256]).take
        (mid :: args).length = mid :: args ∧
      ((mid :: args) ++
        [ospChecksum (mid :: args) / 256, ospChecksum (mid :: args) % 256]).getD 0 0 = mid := by
  have h2043 : 1 + args.length ≤ 2043 := by
    norm_num [MAXBUFFERSIZE] at hlen
    omega
  have hbody : mid % 256 :: args.map (fun a => a % 256) = mid :: args := by
    rw [Nat.mod_eq_of_lt hmid, map_mod_id args hargs]
  have hlenc : (mid :: args).length = 1 + args.length := by
    simp [Nat.add_comm]
  have hltp : ∀ a ∈ mid :: args, a < 256 := by
    intro a ha
    rcases List.mem_cons.mp ha with h | h
    · omega
    · exact hargs a h
  have hcs : ospChecksum (mid :: args) < 32768 :=
    ospChecksum_lt _ (by simp) hltp
  have hw := writeOSPcmd_some mid args h2043
  rw [hbody, hlenc.symm] at hw
  refine ⟨_, hw, ?_, List.take_left _ _, by simp⟩
  have hmap : (([START1, START2, (mid :: args).length / 256, (mid :: args).length % 256] ++
        (mid :: args) ++
        [ospChecksum (mid :: args) / 256, ospChecksum (mid :: args) % 256, END1, END2]).map
        RdByte.ok) =
      ([START1, START2, (mid :: args).length / 256, (mid :: args).length % 256] ++
        (mid :: args) ++
        [ospChecksum (mid :: args) / 256, ospChecksum (mid :: args) % 256]).map RdByte.ok ++
        [RdByte.ok END1, RdByte.ok END2] := by
    simp
  rw [hmap, readOSP_frame (mid :: args) (ospChecksum (mid :: args)) patience _
    (by simp) hltp (by rw [hlenc]; omega) hcs hp]
  simp

theorem osp_roundtrip_amended_witness :
    ∃ frame,
      writeOSPcmd 129 [2, 3] = some frame ∧
      readOSPmsg 1 1 (frame.map RdByte.ok) =
        some (0,
          ((129 : Nat) :: [2, 3]) ++
            [ospChecksum ((129 : Nat) :: [2, 3]) / 256, ospChecksum ((129 : Nat) :: [2, 3]) % 256],
          ((129 : Nat) :: [2, 3]).length, [RdByte.ok END1, RdByte.ok END2]) ∧
      (((129 : Nat) :: [2, 3]) ++
        [ospChecksum ((129 : Nat) :: [2, 3]) / 256, ospChecksum ((129 : Nat) :: [2, 3]) % 256]).take
        ((129 : Nat) :: [2, 3]).length = (129 : Nat) :: [2, 3] ∧
      (((129 : Nat) :: [2, 3]) ++
        [ospChecksum ((129 : Nat) :: [2, 3]) / 256, ospChecksum ((129 : Nat) :: [2, 3]) % 256]).getD 0 0 = 129 :=
  osp_roundtrip_amended 129 [2, 3] 1 (by decide) (by decide) (by decide) (by decide)

/-- C1 counterexample to the claimed bound: the payload `5 :: replicate 2043 7`
has `0 < len p < MAXBUFFERSIZE - 3`, yet `writeOSPcmd` refuses to build any
frame for it, so the claimed round-trip cannot return success there. -/
theorem osp_roundtrip_overflow_cex :
    writeOSPcmd 5 (List.replicate 2043 7) = none ∧
    0 < 1 + (List.replicate 2043 (7 : Nat)).length ∧
    1 + (List.replicate 2043 (7 : Nat)).length < MAXBUFFERSIZE - 3 := by
  refine ⟨?_, by rw [List.length_replicate]; norm_num,
    by rw [List.length_replicate]; norm_num [MAXBUFFERSIZE]⟩
  exact writeOSPcmd_none 5 _ (by rw [List.length_replicate]; norm_num)

/-- C6 (amended): `writeOSPcmd` fails with the command-too-long error iff
`2+2+1+(1+tokenCount)+2+2 > MAXBUFFERSIZE` — the guard counts the message id
twice, once explicitly and once inside `payloadLen = 1 + tokenCount` — i.e.
iff `tokenCount ≥ 2043`; for every smaller token count the frame is built. -/
theorem osp_cmd_too_long_amended (mid : Nat) (args : List Nat) :
    (writeOSPcmd mid args = none ↔
      2 + 2 + 1 + (1 + args.length) + 2 + 2 > MAXBUFFERSIZE) ∧
    (2 + 2 + 1 + (1 + args.length) + 2 + 2 ≤ MAXBUFFERSIZE →
      ∃ frame, writeOSPcmd mid args = some frame) := by
  constructor
  · constructor
    · intro h
      by_contra hgt
      rw [writeOSPcmd_some mid args (by norm_num [MAXBUFFERSIZE] at hgt; omega)] at h
      cases h
    · intro h
      exact writeOSPcmd_none mid args (by norm_num [MAXBUFFERSIZE] at h; omega)
  · intro h
    exact ⟨_, writeOSPcmd_some mid args (by norm_num [MAXBUFFERSIZE] at h; omega)⟩

theorem osp_cmd_too_long_amended_witness :
    ((writeOSPcmd 1 [2] = none ↔
      2 + 2 + 1 + (1 + ([2] : List Nat).length) + 2 + 2 > MAXBUFFERSIZE) ∧
    (2 + 2 + 1 + (1 + ([2] : List Nat).length) + 2 + 2 ≤ MAXBUFFERSIZE →
      ∃ frame, writeOSPcmd 1 [2] = some frame)) ∧
    ∃ frame, writeOSPcmd 1 [2] = some frame :=
  ⟨osp_cmd_too_long_amended 1 [2], (osp_cmd_too_long_amended 1 [2]).2 (by decide)⟩

/-- C6 counterexample to the claimed boundary: with 2043 tokens the claimed
frame size `2+2+1+tokenCount+2+2 = 2052` does not exceed `MAXBUFFERSIZE`,
yet `writeOSPcmd` rejects the command. -/
theorem osp_cmd_too_long_cex :
    writeOSPcmd 0 (List.replicate 2043 (0 : Nat)) = none ∧
    2 + 2 + 1 + (List.replicate 2043 (0 : Nat)).length + 2 + 2 ≤ MAXBUFFERSIZE := by
  refine ⟨writeOSPcmd_none 0 _ (by rw [List.length_replicate]; norm_num),
    by rw [List.length_replicate]; norm_num [MAXBUFFERSIZE]⟩

/-- C4: single-byte corruption is always detected: if `p = pre ++ x :: post`
and `p' = pre ++ y :: post` are byte payloads differing exactly at one
position, their 15-bit additive checksums differ, and `readOSPmsg` fed a
frame carrying `p'` together with the checksum computed over `p` returns
status 1 (checksum mismatch). -/
theorem osp_checksum_detects_corruption (pre post : List Nat) (x y patience : Nat)
    (hpre : ∀ a ∈ pre, a < 256) (hpost : ∀ a ∈ post, a < 256)
    (hx : x < 256) (hy : y < 256) (hxy : x ≠ y)
    (hlen : (pre ++ x :: post).length < MAXBUFFERSIZE - 3) (hp : 0 < patience) :
    ospChecksum (pre ++ y :: post) ≠ ospChecksum (pre ++ x :: post) ∧
    readOSPmsg 1 patience
      (([START1, START2, (pre ++ y :: post).length / 256, (pre ++ y :: post).length % 256] ++
        (pre ++ y :: post) ++
        [ospChecksum (pre ++ x :: post) / 256, ospChecksum (pre ++ x :: post) % 256]).map
        RdByte.ok ++ [RdByte.ok END1, RdByte.ok END2]) =
      some (1,
        (pre ++ y :: post) ++
          [ospChecksum (pre ++ x :: post) / 256, ospChecksum (pre ++ x :: post) % 256],
        (pre ++ y :: post).length, [RdByte.ok END1, RdByte.ok END2]) := by
  have hltx : ∀ a ∈ pre ++ x :: post, a < 256 := by
    intro a ha
    rcases List.mem_append.mp ha with h | h
    · exact hpre a h
    · rcases List.mem_cons.mp h with h | h
      · omega
      · exact hpost a h
  have hlty : ∀ a ∈ pre ++ y :: post, a < 256 := by
    intro a ha
    rcases List.mem_append.mp ha with h | h
    · exact hpre a h
    · rcases List.mem_cons.mp h with h | h
      · omega
      · exact hpost a h
  have hne : ospChecksum (pre ++ y :: post) ≠ ospChecksum (pre ++ x :: post) := by
    rw [ospChecksum_eq_sum _ (by simp) hlty, ospChecksum_eq_sum _ (by simp) hltx,
      List.sum_append, List.sum_append, List.sum_cons, List.sum_cons]
    omega
  refine ⟨hne, ?_⟩
  have hlen2 : (pre ++ y :: post).length < 2049 := by
    norm_num [MAXBUFFERSIZE] at hlen
    simp only [List.length_append, List.length_cons] at hlen ⊢
    omega
  have hcx : ospChecksum (pre ++ x :: post) < 32768 :=
    ospChecksum_lt _ (by simp) hltx
  rw [readOSP_frame (pre ++ y :: post) (ospChecksum (pre ++ x :: post)) patience _
    (by simp) hlty hlen2 hcx hp]
  rw [if_neg hne]

theorem osp_checksum_detects_corruption_witness :
    ospChecksum [129, 2, 3] = 134 ∧
    (ospChecksum (([129] : List Nat) ++ 3 :: [3]) ≠
        ospChecksum (([129] : List Nat) ++ 2 :: [3]) ∧
    readOSPmsg 1 1
      (([START1, START2, (([129] : List Nat) ++ 3 :: [3]).length / 256,
          (([129] : List Nat) ++ 3 :: [3]).length % 256] ++
        (([129] : List Nat) ++ 3 :: [3]) ++
        [ospChecksum (([129] : List Nat) ++ 2 :: [3]) / 256,
         ospChecksum (([129] : List Nat) ++ 2 :: [3]) % 256]).map
        RdByte.ok ++ [RdByte.ok END1, RdByte.ok END2]) =
      some (1,
        (([129] : List Nat) ++ 3 :: [3]) ++
          [ospChecksum (([129] : List Nat) ++ 2 :: [3]) / 256,
           ospChecksum (([129] : List Nat) ++ 2 :: [3]) % 256],
        (([129] : List Nat) ++ 3 :: [3]).length, [RdByte.ok END1, RdByte.ok END2])) :=
  ⟨by decide, osp_checksum_detects_corruption [129] [3] 2 3 1 (by decide) (by decide)
    (by decide) (by decide) (by decide) (by decide) (by decide)⟩

/-- After synchronizing on `A0 A2` and reading the two length bytes, the
behavior of `readOSPmsg` is decided by the range check on `256*hi+lo`. -/
theorem readOSP_lenfield (hi lo patience fuel : Nat) (rest : List RdByte)
    (hhi : hi < 256) (hlo : lo < 256) (hp : 0 < patience) :
    readOSPmsg fuel patience
      (RdByte.ok 160 :: RdByte.ok 162 :: RdByte.ok hi :: RdByte.ok lo :: rest) =
      if 0 < 256 * hi + lo ∧ 256 * hi + lo < MAXBUFFERSIZE - 1 - 2 then
        ospAfterLen fuel (256 * hi + lo) rest
      else some (3, [], 256 * hi + lo, rest) := by
  rw [readOSPmsg, synchOSP_start _ _ hp]
  dsimp only
  rw [transRead_two]
  dsimp only
  rw [Nat.mod_eq_of_lt hhi, Nat.mod_eq_of_lt hlo, if_pos (rfl : (2 : Int) = 2)]

/-- C5: after synchronization and a successful 2-byte length read, the
declared big-endian length `256*hi+lo` is rejected with status 3 — leaving
the rest of the stream unread — exactly when it is 0 or at least
`MAXBUFFERSIZE - 3`; otherwise `readOSPmsg` proceeds to the payload read. -/
theorem osp_paylen_range_check (hi lo patience fuel : Nat) (rest : List RdByte)
    (hhi : hi < 256) (hlo : lo < 256) (hp : 0 < patience) :
    (¬ (0 < 256 * hi + lo ∧ 256 * hi + lo < MAXBUFFERSIZE - 3) →
      readOSPmsg fuel patience
        (RdByte.ok 160 :: RdByte.ok 162 :: RdByte.ok hi :: RdByte.ok lo :: rest) =
        some (3, [], 256 * hi + lo, rest)) ∧
    ((0 < 256 * hi + lo ∧ 256 * hi + lo < MAXBUFFERSIZE - 3) →
      readOSPmsg fuel patience
        (RdByte.ok 160 :: RdByte.ok 162 :: RdByte.ok hi :: RdByte.ok lo :: rest) =
        ospAfterLen fuel (256 * hi + lo) rest) := by
  have hmb : MAXBUFFERSIZE - 3 = MAXBUFFERSIZE - 1 - 2 := by
    norm_num [MAXBUFFERSIZE]
  rw [readOSP_lenfield hi lo patience fuel rest hhi hlo hp]
  constructor
  · intro h
    rw [hmb] at h
    rw [if_neg h]
  · intro h
    rw [hmb] at h
    rw [if_pos h]

theorem osp_paylen_range_check_witness :
    (¬ (0 < 256 * 8 + 4 ∧ 256 * 8 + 4 < MAXBUFFERSIZE - 3) →
      readOSPmsg 0 1 (RdByte.ok 160 :: RdByte.ok 162 :: RdByte.ok 8 :: RdByte.ok 4 :: []) =
        some (3, [], 256 * 8 + 4, [])) ∧
    ((0 < 256 * 8 + 4 ∧ 256 * 8 + 4 < MAXBUFFERSIZE - 3) →
      readOSPmsg 0 1 (RdByte.ok 160 :: RdByte.ok 162 :: RdByte.ok 8 :: RdByte.ok 4 :: []) =
        ospAfterLen 0 (256 * 8 + 4) []) ∧
    readOSPmsg 0 1 (RdByte.ok 160 :: RdByte.ok 162 :: RdByte.ok 8 :: RdByte.ok 4 :: []) =
      some (3, [], 2052, []) :=
  ⟨(osp_paylen_range_check 8 4 1 0 [] (by decide) (by decide) (by decide)).1,
   (osp_paylen_range_check 8 4 1 0 [] (by decide) (by decide) (by decide)).2,
   by
    have h := (osp_paylen_range_check 8 4 1 0 [] (by decide) (by decide) (by decide)).1
      (by decide)
    simpa using h⟩

/-! ### Divergence of the payload loop on read errors -/

theorem ospPayLoop_err_step (fuel : Nat) (buf : List Nat) (stored : Int) (need : Nat)
    (t : List RdByte) (h : stored < (need : Int)) :
    ospPayLoop (fuel + 1) buf stored need (RdByte.err :: t) =
      ospPayLoop fuel buf (stored - 1) need t := by
  rw [ospPayLoop]
  rw [transRead.eq_def]
  rw [if_neg (by omega : ¬ ((need : Int) - stored ≤ 0))]
  dsimp only
  rw [if_pos (by constructor <;> omega : (-1 : Int) ≠ 0 ∧ stored + -1 < (need : Int))]
  rw [List.append_nil]
  have hst : stored + -1 = stored - 1 := by ring
  rw [hst]

theorem ospPayLoop_err_diverges (fuel : Nat) :
    ∀ (buf : List Nat) (stored : Int) (need : Nat), stored < (need : Int) →
      ospPayLoop fuel buf stored need (List.replicate fuel RdByte.err) = none := by
  induction fuel with
  | zero => intro buf stored need _; rfl
  | succ f ih =>
    intro buf stored need h
    rw [List.replicate_succ, ospPayLoop_err_step f buf stored need _ h]
    exact ih buf (stored - 1) need (by omega)

theorem ospAfterLen_err_diverges (fuel pl : Nat) :
    ospAfterLen fuel pl (List.replicate fuel RdByte.err) = none := by
  rw [ospAfterLen]
  rw [ospPayLoop_err_diverges fuel [] 0 (pl + 2) (by positivity)]

/-! ### The statuses readOSPmsg can actually return -/

theorem ospAfterLen_status (fuel pl : Nat) (q : List RdByte) (s : Nat) (b : List Nat)
    (l : Nat) (rest : List RdByte) (h : ospAfterLen fuel pl q = some (s, b, l, rest)) :
    s = 2 ∨ s = 0 ∨ s = 1 := by
  rw [ospAfterLen] at h
  rcases hpl : ospPayLoop fuel [] 0 (pl + 2) q with _ | ⟨buf, stored, q'⟩
  · rw [hpl] at h
    cases h
  · rw [hpl] at h
    dsimp only at h
    split at h
    · simp only [Option.some.injEq, Prod.mk.injEq] at h
      omega
    · split at h
      · simp only [Option.some.injEq, Prod.mk.injEq] at h
        omega
      · simp only [Option.some.injEq, Prod.mk.injEq] at h
        omega

theorem readOSP_status_ne5 (fuel patience : Nat) (q : List RdByte) (s : Nat)
    (b : List Nat) (l : Nat) (rest : List RdByte)
    (h : readOSPmsg fuel patience q = some (s, b, l, rest)) : s ≠ 5 := by
  rw [readOSPmsg] at h
  rcases hsy : synchOSPmsg 1 patience q with ⟨ok1, p1, q1⟩
  rw [hsy] at h
  rcases ok1 with _ | _
  · dsimp only at h
    simp only [Option.some.injEq, Prod.mk.injEq] at h
    omega
  · dsimp only at h
    rcases htr : transRead q1 2 with ⟨r, bs, q2⟩
    rw [htr] at h
    dsimp only at h
    split at h
    · rcases bs with _ | ⟨b0, bs⟩
      · dsimp only at h
        simp only [Option.some.injEq, Prod.mk.injEq] at h
        omega
      · rcases bs with _ | ⟨b1, bs⟩
        · dsimp only at h
          simp only [Option.some.injEq, Prod.mk.injEq] at h
          omega
        · rcases bs with _ | ⟨b2, bs⟩
          · dsimp only at h
            split at h
            · have hst := ospAfterLen_status fuel (256 * b0 + b1) q2 s b l rest h
              omega
            · simp only [Option.some.injEq, Prod.mk.injEq] at h
              omega
          · dsimp only at h
            simp only [Option.some.injEq, Prod.mk.injEq] at h
            omega
    · simp only [Option.some.injEq, Prod.mk.injEq] at h
      omega

/-- C10: the OSP payload-read loop exits only when all `payloadLen+2` bytes
are stored or a read returns exactly 0; a read returning `-1` keeps looping
and decreases the stored-byte count by one, so when every read after the
length field returns `-1` the loop never finishes (for every iteration bound
`fuel` it is still running), and no execution path of `readOSPmsg` ever
returns the documented read-error status 5. -/
theorem osp_payload_loop_divergence :
    (∀ (fuel : Nat) (buf : List Nat) (stored : Int) (need : Nat) (t : List RdByte),
        stored < (need : Int) →
        ospPayLoop (fuel + 1) buf stored need (RdByte.err :: t) =
          ospPayLoop fuel buf (stored - 1) need t) ∧
    (∀ (fuel : Nat) (buf : List Nat) (stored : Int) (need : Nat),
        stored < (need : Int) →
        ospPayLoop fuel buf stored need (List.replicate fuel RdByte.err) = none) ∧
    (∀ fuel patience hi lo : Nat, hi < 256 → lo < 256 → 0 < patience →
        0 < 256 * hi + lo → 256 * hi + lo < MAXBUFFERSIZE - 3 →
        readOSPmsg fuel patience
          (RdByte.ok 160 :: RdByte.ok 162 :: RdByte.ok hi :: RdByte.ok lo ::
            List.replicate fuel RdByte.err) = none) ∧
    (∀ (fuel patience : Nat) (q : List RdByte) (s : Nat) (b : List Nat) (l : Nat)
        (rest : List RdByte),
        readOSPmsg fuel patience q = some (s, b, l, rest) → s ≠ 5) := by
  refine ⟨ospPayLoop_err_step, ospPayLoop_err_diverges, ?_, readOSP_status_ne5⟩
  intro fuel patience hi lo hhi hlo hp h1 h2
  rw [readOSP_lenfield hi lo patience fuel _ hhi hlo hp]
  rw [if_pos ⟨h1, by norm_num [MAXBUFFERSIZE] at h2 ⊢; omega⟩]
  exact ospAfterLen_err_diverges fuel _

theorem osp_payload_loop_divergence_witness :
    (ospPayLoop (0 + 1) [] 0 1 (RdByte.err :: []) = ospPayLoop 0 [] (0 - 1) 1 []) ∧
    (ospPayLoop 3 [] 0 2 (List.replicate 3 RdByte.err) = none) ∧
    (readOSPmsg 2 1 (RdByte.ok 160 :: RdByte.ok 162 :: RdByte.ok 0 :: RdByte.ok 5 ::
        List.replicate 2 RdByte.err) = none) ∧
    (6 : Nat) ≠ 5 := by
  have h6 : readOSPmsg 0 0 [] = some (6, [], 0, []) := by
    rw [readOSPmsg, synchOSP_zero 1 [] (by omega)]
  exact ⟨osp_payload_loop_divergence.1 0 [] 0 1 [] (by norm_num),
    osp_payload_loop_divergence.2.1 3 [] 0 2 (by norm_num),
    osp_payload_loop_divergence.2.2.1 2 1 0 5 (by norm_num) (by norm_num) (by norm_num)
      (by norm_num) (by norm_num [MAXBUFFERSIZE]),
    osp_payload_loop_divergence.2.2.2 0 0 [] 6 [] 0 [] h6⟩

/-- C3: the OSP synchronization automaton's transition table, read byte by
byte; failed or empty reads decrement patience leaving the state unchanged;
the loop exits exactly in the synced state or at patience 0. -/
theorem osp_sync_automaton :
    (ospSyncStep 1 START1 = (2, false)) ∧
    (ospSyncStep 1 START2 = (1, false)) ∧
    (∀ b, b ≠ START1 → b ≠ START2 → ospSyncStep 1 b = (1, true)) ∧
    (ospSyncStep 2 START2 = (3, false)) ∧
    (ospSyncStep 2 START1 = (2, false)) ∧
    (∀ b, b ≠ START1 → b ≠ START2 → ospSyncStep 2 b = (1, true)) ∧
    (∀ (s p : Nat) (t : List RdByte), s ≠ 3 → 0 < p →
        synchOSPmsg s p (RdByte.err :: t) = synchOSPmsg s (p - 1) t) ∧
    (∀ (s p : Nat) (t : List RdByte), s ≠ 3 → 0 < p →
        synchOSPmsg s p (RdByte.stop :: t) = synchOSPmsg s (p - 1) t) ∧
    (∀ (s p b : Nat) (t : List RdByte), s ≠ 3 → 0 < p → b < 256 →
        synchOSPmsg s p (RdByte.ok b :: t) =
          synchOSPmsg (ospSyncStep s b).1
            (if (ospSyncStep s b).2 then p - 1 else p) t) ∧
    (∀ (p : Nat) (q : List RdByte), synchOSPmsg 3 p q = (true, p, q)) ∧
    (∀ (s : Nat) (q : List RdByte), s ≠ 3 → synchOSPmsg s 0 q = (false, 0, q)) := by
  refine ⟨by decide, by decide, ?_, by decide, by decide, ?_, synchOSP_err, synchOSP_stop,
    ?_, synchOSP_done, fun s q hs => synchOSP_zero s q hs⟩
  · intro b h1 h2
    simp [ospSyncStep, h1, h2]
  · intro b h1 h2
    simp [ospSyncStep, h1, h2]
  · intro s p b t hs hp hb
    rw [synchOSP_ok s p b t hs hp, Nat.mod_eq_of_lt hb]

theorem osp_sync_automaton_witness :
    ospSyncStep 1 7 = (1, true) ∧
    synchOSPmsg 2 5 (RdByte.err :: []) = synchOSPmsg 2 4 [] ∧
    synchOSPmsg 2 5 (RdByte.stop :: []) = synchOSPmsg 2 4 [] ∧
    synchOSPmsg 1 4 (RdByte.ok 170 :: []) =
      synchOSPmsg (ospSyncStep 1 170).1 (if (ospSyncStep 1 170).2 then 4 - 1 else 4) [] ∧
    synchOSPmsg 3 9 [RdByte.err] = (true, 9, [RdByte.err]) ∧
    synchOSPmsg 2 0 [RdByte.err] = (false, 0, [RdByte.err]) := by
  obtain ⟨h1, h2, h3, h4, h5, h6, h7, h8, h9, h10, h11⟩ := osp_sync_automaton
  exact ⟨h3 7 (by decide) (by decide), h7 2 5 [] (by decide) (by decide),
    h8 2 5 [] (by decide) (by decide), h9 1 4 170 [] (by decide) (by decide) (by decide),
    h10 9 [RdByte.err], h11 2 [RdByte.err] (by decide)⟩

/-! ### Streams without a start sequence never synchronize -/

theorem hasStartSeq_false_cons (a : Nat) (t : List Nat)
    (h : hasStartSeq (a :: t) = false) :
    hasStartSeq t = false ∧ (a = START1 → t.head? ≠ some START2) := by
  rcases t with _ | ⟨b, t'⟩
  · exact ⟨rfl, by simp⟩
  · rw [hasStartSeq] at h
    simp only [Bool.or_eq_false_iff, Bool.and_eq_false_iff, beq_eq_false_iff_ne] at h
    refine ⟨h.2, ?_⟩
    intro ha hc
    simp only [List.head?_cons, Option.some.injEq] at hc
    rcases h.1 with h1 | h1
    · exact h1 ha
    · exact h1 hc

theorem synchOSP_no_start (l : List Nat) :
    ∀ (s p : Nat), (s = 1 ∨ s = 2) → (∀ b ∈ l, b < 256) → hasStartSeq l = false →
      (s = 2 → l.head? ≠ some START2) →
      ∃ q', synchOSPmsg s p (l.map RdByte.ok) = (false, 0, q') := by
  induction l with
  | nil =>
    intro s p hs _ _ _
    exact ⟨[], synchOSP_nil s (by omega) p⟩
  | cons a t ih =>
    intro s p hs hlt hseq hhd
    rcases Nat.eq_zero_or_pos p with hp | hp
    · subst hp
      exact ⟨_, synchOSP_zero s _ (by omega)⟩
    have ha : a % 256 = a := Nat.mod_eq_of_lt (hlt a (by simp))
    have hlt' : ∀ b ∈ t, b < 256 := fun b hb => hlt b (by simp [hb])
    obtain ⟨hseq', hhd'⟩ := hasStartSeq_false_cons a t hseq
    rcases hs with hs | hs
    · subst hs
      rw [List.map_cons, synchOSP_ok 1 p a _ (by omega) hp, ha]
      by_cases h1 : a = START1
      · subst h1
        rw [show ospSyncStep 1 START1 = (2, false) from by decide]
        exact ih 2 p (Or.inr rfl) hlt' hseq' (fun _ => hhd' rfl)
      · by_cases h2 : a = START2
        · subst h2
          rw [show ospSyncStep 1 START2 = (1, false) from by decide]
          exact ih 1 p (Or.inl rfl) hlt' hseq' (fun h => absurd h (by norm_num))
        · rw [show ospSyncStep 1 a = (1, true) from by simp [ospSyncStep, h1, h2]]
          exact ih 1 (p - 1) (Or.inl rfl) hlt' hseq' (fun h => absurd h (by norm_num))
    · subst hs
      have hne2 : a ≠ START2 := by
        intro hc
        exact hhd rfl (by simp [hc])
      rw [List.map_cons, synchOSP_ok 2 p a _ (by omega) hp, ha]
      by_cases h1 : a = START1
      · subst h1
        rw [show ospSyncStep 2 START1 = (2, false) from by decide]
        exact ih 2 p (Or.inr rfl) hlt' hseq' (fun _ => hhd' rfl)
      · rw [show ospSyncStep 2 a = (1, true) from by simp [ospSyncStep, h1, hne2]]
        exact ih 1 (p - 1) (Or.inl rfl) hlt' hseq' (fun h => absurd h (by norm_num))

/-- C2: on any byte stream containing no `START1 START2` start sequence,
`readOSPmsg` with patience 10 spends exactly the 10 units of patience budget
during synchronization (the loop terminates with remaining patience 0) and
returns status 6. -/
theorem osp_sync_timeout (l : List Nat) (fuel : Nat)
    (hlt : ∀ b ∈ l, b < 256) (hseq : hasStartSeq l = false) :
    ∃ q', synchOSPmsg 1 10 (l.map RdByte.ok) = (false, 0, q') ∧
      readOSPmsg fuel 10 (l.map RdByte.ok) = some (6, [], 0, q') := by
  obtain ⟨q', hq⟩ := synchOSP_no_start l 1 10 (Or.inl rfl) hlt hseq
    (fun h => absurd h (by norm_num))
  refine ⟨q', hq, ?_⟩
  rw [readOSPmsg, hq]

theorem osp_sync_timeout_witness :
    ∃ q', synchOSPmsg 1 10 ((List.replicate 12 162).map RdByte.ok) = (false, 0, q') ∧
      readOSPmsg 0 10 ((List.replicate 12 162).map RdByte.ok) = some (6, [], 0, q') :=
  osp_sync_timeout (List.replicate 12 162) 0 (by decide) (by decide)

/-! ### The NMEA line-accumulation loop -/

theorem nmeaLoop_run (body : List Nat) :
    ∀ (len : Nat) (buf : List Nat) (rest : List RdByte),
      (∀ b ∈ body, b < 256 ∧ b ≠ CR) → len + body.length ≤ 2051 →
      nmeaLoop len buf (body.map RdByte.ok ++ RdByte.ok 13 :: rest) =
        (if len + body.length < 5 then (2, len + body.length, buf ++ body, rest)
         else (0, len + body.length - 3, buf ++ body, rest)) := by
  induction body with
  | nil =>
    intro len buf rest _ _
    rw [List.map_nil, List.nil_append, nmeaLoop]
    norm_num [CR]
  | cons b bs ih =>
    intro len buf rest hb hcap
    have hblt := (hb b (by simp)).1
    have hbne := (hb b (by simp)).2
    rw [List.map_cons, List.cons_append, nmeaLoop]
    rw [Nat.mod_eq_of_lt hblt]
    rw [if_neg (by simp [CR] at hbne ⊢; omega)]
    rw [if_pos (by norm_num [MAXBUFFERSIZE]; simp only [List.length_cons] at hcap; omega)]
    rw [ih (len + 1) (buf ++ [b]) rest (fun x hx => hb x (by simp [hx]))
      (by simp only [List.length_cons] at hcap ⊢; omega)]
    have harith : len + 1 + bs.length = len + (b :: bs).length := by
      simp only [List.length_cons]
      omega
    rw [harith, List.append_assoc, List.singleton_append]

/-- C8: when fewer than 5 characters are accumulated after the `<LF><$>`
synchronization prefix before the Carriage-Return byte, `readNMEAmsg`
returns status 2 (message too short) with the accumulated characters. -/
theorem nmea_too_short (body : List Nat) (rest : List RdByte) (patience : Nat)
    (hb : ∀ b ∈ body, b < 256 ∧ b ≠ CR) (hlen : body.length < 5) (hp : 0 < patience) :
    readNMEAmsg patience
      (RdByte.ok 10 :: RdByte.ok 36 :: (body.map RdByte.ok ++ RdByte.ok 13 :: rest)) =
      (2, body.length, body, rest) := by
  rw [readNMEAmsg, synchNMEA_start _ _ hp]
  dsimp only
  rw [nmeaLoop_run body 0 [] rest hb (by omega)]
  rw [if_pos (by omega : 0 + body.length < 5)]
  dsimp only
  rw [if_neg (by norm_num : ¬ (2 : Nat) = 0)]
  rw [Nat.zero_add, List.nil_append]

theorem nmea_too_short_witness :
    readNMEAmsg 1
      (RdByte.ok 10 :: RdByte.ok 36 ::
        (([65, 66, 67] : List Nat).map RdByte.ok ++ RdByte.ok 13 :: [])) =
      (2, ([65, 66, 67] : List Nat).length, [65, 66, 67], []) :=
  nmea_too_short [65, 66, 67] [] 1 (by decide) (by decide) (by decide)

/-- C9: `readNMEAmsg` never checks that the byte three positions before the
Carriage-Return is `'*'`: for any line `bs ++ [x, h1, h2]` of at least 5
pre-CR characters — `x` arbitrary — whose last two characters hex-parse to
the XOR checksum of `bs`, it returns success with the last three bytes
silently stripped from the returned body. -/
theorem nmea_star_not_checked (bs : List Nat) (x h1 h2 patience : Nat) (rest : List RdByte)
    (hb : ∀ b ∈ bs, b < 256 ∧ b ≠ CR)
    (hx : x < 256) (hxn : x ≠ CR) (hh1 : h1 < 256) (hh1n : h1 ≠ CR)
    (hh2 : h2 < 256) (hh2n : h2 ≠ CR)
    (hlen : 2 ≤ bs.length) (hcap : bs.length + 3 ≤ 2051)
    (hchk : sscanfHex2 h1 h2 = nmeaChecksum bs) (hp : 0 < patience) :
    readNMEAmsg patience
      (RdByte.ok 10 :: RdByte.ok 36 ::
        ((bs ++ [x, h1, h2]).map RdByte.ok ++ RdByte.ok 13 :: rest)) =
      (0, bs.length, bs, rest) := by
  have hall : ∀ b ∈ bs ++ [x, h1, h2], b < 256 ∧ b ≠ CR := by
    intro b hmem
    rcases List.mem_append.mp hmem with h | h
    · exact hb b h
    · simp only [List.mem_cons, List.not_mem_nil, or_false] at h
      rcases h with h | h | h <;> subst h
      · exact ⟨hx, hxn⟩
      · exact ⟨hh1, hh1n⟩
      · exact ⟨hh2, hh2n⟩
  have hlen3 : (bs ++ [x, h1, h2]).length = bs.length + 3 := by
    simp
  rw [readNMEAmsg, synchNMEA_start _ _ hp]
  dsimp only
  rw [nmeaLoop_run (bs ++ [x, h1, h2]) 0 [] rest hall (by rw [hlen3]; omega)]
  rw [if_neg (by rw [hlen3]; omega : ¬ 0 + (bs ++ [x, h1, h2]).length < 5)]
  dsimp only
  rw [if_pos rfl]
  rw [List.nil_append, Nat.zero_add, hlen3]
  have hsub : bs.length + 3 - 3 = bs.length := by omega
  rw [hsub, List.take_left, getD_append_len bs [x, h1, h2] 1, getD_append_len bs [x, h1, h2] 2]
  rw [show ([x, h1, h2] : List Nat).getD 1 0 = h1 from rfl]
  rw [show ([x, h1, h2] : List Nat).getD 2 0 = h2 from rfl]
  rw [if_pos hchk.symm]

theorem nmea_star_not_checked_witness :
    ((42 : Nat) ∉ ([65, 66] : List Nat) ++ [88, 48, 51]) ∧
    readNMEAmsg 1
      (RdByte.ok 10 :: RdByte.ok 36 ::
        ((([65, 66] : List Nat) ++ [88, 48, 51]).map RdByte.ok ++ RdByte.ok 13 :: [])) =
      (0, ([65, 66] : List Nat).length, [65, 66], []) :=
  ⟨by decide, nmea_star_not_checked [65, 66] 88 48 51 1 [] (by decide) (by decide)
    (by decide) (by decide) (by decide) (by decide) (by decide) (by decide) (by decide)
    (by decide) (by decide)⟩

/-! ### Decimal rendering facts for the NMEA command header -/

theorem decRepAux_lt10 (fuel m : Nat) (h : m < 10) : decRepAux fuel m = [48 + m] := by
  rcases fuel with _ | f
  · rw [decRepAux, Nat.mod_eq_of_lt h]
  · rw [decRepAux, if_pos h]

theorem decRepAux_ge10 (fuel m : Nat) (h : 10 ≤ m) (hf : 0 < fuel) :
    decRepAux fuel m = decRepAux (fuel - 1) (m / 10) ++ [48 + m % 10] := by
  obtain ⟨f, rfl⟩ : ∃ f, fuel = f + 1 := ⟨fuel - 1, by omega⟩
  rw [decRepAux, if_neg (by omega)]
  norm_num

theorem decRep_digits1 (n : Nat) (h : n < 10) : decRep n = [48 + n] :=
  decRepAux_lt10 n n h

theorem decRep_digits2 (n : Nat) (h10 : 10 ≤ n) (h : n < 100) :
    decRep n = [48 + n / 10, 48 + n % 10] := by
  rw [decRep, decRepAux_ge10 n n h10 (by omega), decRepAux_lt10 _ _ (by omega)]
  rfl

theorem decRep_digits3 (n : Nat) (h100 : 100 ≤ n) (h : n < 1000) :
    decRep n = [48 + n / 100, 48 + n / 10 % 10, 48 + n % 10] := by
  rw [decRep, decRepAux_ge10 n n (by omega) (by omega)]
  rw [decRepAux_ge10 (n - 1) (n / 10) (by omega) (by omega)]
  rw [decRepAux_lt10 _ _ (by omega)]
  rw [Nat.div_div_eq_div_mul]
  rfl

/-- The header's 3-character id field as the amended specification words it:
the decimal digits of the message id, left-padded with SPACE (0x20) to
width 3 — `printf %3d`, not a zero-padded field. -/
def fmt3spec (n : Nat) : List Nat :=
  if n < 10 then [32, 32, 48 + n]
  else if n < 100 then [32, 48 + n / 10, 48 + n % 10]
  else [48 + n / 100, 48 + n / 10 % 10, 48 + n % 10]

theorem fmt3_eq_spec (n : Nat) (h : n ≤ 999) : fmt3 n = fmt3spec n := by
  by_cases h1 : n < 10
  · rw [fmt3, decRep_digits1 n h1, fmt3spec, if_pos h1]
    rfl
  · by_cases h2 : n < 100
    · rw [fmt3, decRep_digits2 n (by omega) h2, fmt3spec, if_neg h1, if_pos h2]
      rfl
    · rw [fmt3, decRep_digits3 n (by omega) (by omega), fmt3spec, if_neg h1, if_neg h2]
      rfl

/-- The line `writeNMEAcmd` emits, as the amended specification words it:
`$PSRF`, the space-padded 3-character decimal id field, a comma, the
argument text verbatim, `*`, the two uppercase hex digits of the XOR of
everything after the `$`, CR, LF. -/
def nmeaSpecFrame (mid : Nat) (args : List Nat) : List Nat :=
  let afterDollar := [80, 83, 82, 70] ++ fmt3spec mid ++ [44] ++ args
  let chk := afterDollar.foldl (fun acc b => Nat.xor acc b) 0
  [36] ++ afterDollar ++ [42, hexDigitU (chk / 16), hexDigitU (chk % 16), 13, 10]

theorem foldl_xor_from_zero (b : Nat) (t : List Nat) :
    (b :: t).foldl (fun acc x => Nat.xor acc x) 0 = nmeaChecksum (b :: t) := by
  rw [List.foldl_cons, nmeaChecksum]
  have hz : Nat.xor 0 b = b := Nat.zero_xor b
  rw [hz]

theorem foldl_xor_lt (t : List Nat) :
    ∀ s, s < 256 → (∀ a ∈ t, a < 256) →
      t.foldl (fun acc x => Nat.xor acc x) s < 256 := by
  induction t with
  | nil => intro s hs _; simpa using hs
  | cons a t ih =>
    intro s hs hlt
    rw [List.foldl_cons]
    refine ih _ ?_ (fun x hx => hlt x (by simp [hx]))
    have ha : a < 256 := hlt a (by simp)
    have h := @Nat.xor_lt_two_pow s a 8 (by omega) (by omega)
    have hx : Nat.xor s a = s ^^^ a := rfl
    rw [hx]
    norm_num at h
    exact h

theorem fmt3spec_mem_lt (n : Nat) (h : n ≤ 999) : ∀ a ∈ fmt3spec n, a < 256 := by
  intro a ha
  rw [fmt3spec] at ha
  split_ifs at ha with h1 h2 <;>
    simp only [List.mem_cons, List.not_mem_nil, or_false] at ha <;>
    rcases ha with h | h | h <;> omega

/-- C7 (amended): for `mid ≤ 999` the emitted NMEA command line is `$PSRF`,
the SPACE-padded (`printf %3d`, not zero-padded) 3-character decimal id
field, a comma, the argument text verbatim, `*`, the 2 uppercase hex digits
of the XOR over everything after `$`, CR, LF; when the argument bytes are
bytes, that XOR fits one byte, so the field really is 2 hex digits. -/
theorem nmea_cmd_format_amended (mid : Nat) (args : List Nat) (hm : mid ≤ 999) :
    writeNMEAcmd mid args = nmeaSpecFrame mid args ∧
    ((∀ a ∈ args, a < 256) →
      nmeaChecksum (([DOLAR, 80, 83, 82, 70] ++ fmt3 mid ++ [44] ++ args).drop 1) < 256) := by
  constructor
  · rw [writeNMEAcmd, nmeaSpecFrame, fmt3_eq_spec mid hm]
    have hd : (([36, 80, 83, 82, 70] : List Nat) ++ fmt3spec mid ++ [44] ++ args).drop 1 =
        80 :: (83 :: 82 :: 70 :: (fmt3spec mid ++ ([44] ++ args))) := by
      simp
    have hsh : (([80, 83, 82, 70] : List Nat) ++ fmt3spec mid ++ [44] ++ args) =
        80 :: (83 :: 82 :: 70 :: (fmt3spec mid ++ ([44] ++ args))) := by
      simp
    simp only [DOLAR, CR, LF]
    rw [hd, hsh, foldl_xor_from_zero]
    simp
  · intro hargs
    rw [fmt3_eq_spec mid hm]
    have hd : (([DOLAR, 80, 83, 82, 70] : List Nat) ++ fmt3spec mid ++ [44] ++ args).drop 1 =
        80 :: (83 :: 82 :: 70 :: (fmt3spec mid ++ ([44] ++ args))) := by
      simp [DOLAR]
    rw [hd, nmeaChecksum]
    refine foldl_xor_lt _ 80 (by norm_num) ?_
    intro a ha
    simp only [List.mem_cons, List.mem_append, List.not_mem_nil, or_false] at ha
    rcases ha with h | h | h | h
    · omega
    · omega
    · omega
    · rcases h with h | h
      · exact fmt3spec_mem_lt mid hm a h
      · rcases h with h | h
        · omega
        · exact hargs a h

/-- C7 counterexample to zero-padding: for message id 5 the emitted header
is `$PSRF  5,` (space-padded `%3d`), not the claimed `$PSRF005,`. -/
theorem nmea_cmd_header_cex :
    (writeNMEAcmd 5 []).take 9 ≠ [36, 80, 83, 82, 70, 48, 48, 53, 44] ∧
    (writeNMEAcmd 5 []).take 9 = [36, 80, 83, 82, 70, 32, 32, 53, 44] := by
  constructor
  · decide
  · decide

theorem nmea_cmd_format_amended_witness :
    (writeNMEAcmd 103 [49, 44, 50] = nmeaSpecFrame 103 [49, 44, 50] ∧
    ((∀ a ∈ ([49, 44, 50] : List Nat), a < 256) →
      nmeaChecksum (([DOLAR, 80, 83, 82, 70] ++ fmt3 103 ++ [44] ++ [49, 44, 50]).drop 1) <
        256)) ∧
    nmeaChecksum (([DOLAR, 80, 83, 82, 70] ++ fmt3 103 ++ [44] ++ [49, 44, 50]).drop 1) <
      256 :=
  ⟨nmea_cmd_format_amended 103 [49, 44, 50] (by decide),
   (nmea_cmd_format_amended 103 [49, 44, 50] (by decide)).2 (by decide)⟩
